import Mathlib

/-!
# Verification of the LCZ raster-to-vector processing core

Shallow embedding of the `lcz4r`-style processing pipeline of the
clima-urbano-interativo repository (file `utils/lcz4r.py`, consumed by
`modules/explorar.py`) together with proofs that settle the frozen claims
about it.

The embedding conventions:

* numpy arrays become `List (List Nat)` (pixel values are small naturals,
  nodata sentinel `255`);
* float quantities become `ℚ`; a float result that is non-finite
  (NaN or ±inf, produced by a division whose denominator is zero) is
  modelled as `none : Option ℚ`;
* `np.unique` (sorted distinct values) is `npUnique`;
* `pandas.groupby` key ordering (ascending sort of the keys) reuses
  `npUnique` on the key column;
* `DataFrame.sort_values` is modelled as the executable insertion sort
  `sortLe`; the source's default `kind='quicksort'` (numpy introsort)
  guarantees no particular order among comparator-ties on larger
  arrays, so general theorems use only ordering and permutation
  properties of `sortLe` that hold for any correct sort, and concrete
  evaluations stay on tables small enough (below numpy's 17-element
  insertion-sort threshold) that the two algorithms coincide;
* Python exceptions become `Except` with an error type mirroring the
  repository's exception classes.
-/

namespace Lcz

/-! ## List helpers modelling numpy / pandas primitives -/

/-- Insert `x` into a strictly ascending list, dropping it if already
present.  Building block for `npUnique`. -/
def insertUniq {α : Type} [LinearOrder α] (x : α) : List α → List α
  | [] => [x]
  | y :: ys => if x < y then x :: y :: ys else if x = y then y :: ys else y :: insertUniq x ys

/-- Model of `np.unique` (and of the key order of `pandas.groupby(sort=True)`): the
distinct values of `l` in ascending order. -/
def npUnique {α : Type} [LinearOrder α] (l : List α) : List α :=
  l.foldr insertUniq []

/-- Stable insertion placing `x` before the first `y` with `le x y`. -/
def insertLe {α : Type} (le : α → α → Bool) (x : α) : List α → List α
  | [] => [x]
  | y :: ys => if le x y then x :: y :: ys else y :: insertLe le x ys

/-- Insertion sort: the executable model of `DataFrame.sort_values`.
numpy's default sort behind `sort_values(kind='quicksort')` runs its
insertion-sort phase on arrays of fewer than 17 elements, where it
coincides with this function; on larger arrays its partition step may
reorder comparator-ties, so general theorems about the program rely
only on properties of `sortLe` that hold for any correct sort
(sortedness and permutation), never on its tie order. -/
def sortLe {α : Type} (le : α → α → Bool) : List α → List α
  | [] => []
  | x :: xs => insertLe le x (sortLe le xs)

/-- Model of `np.argmax` over a list of `(value, count)` pairs: the pair whose
count is maximal, the earliest one on ties. -/
def firstMax : List (Nat × Nat) → Option (Nat × Nat)
  | [] => none
  | p :: rest =>
    match firstMax rest with
    | none => some p
    | some q => if q.2 > p.2 then some q else some p

/-! ## Raster aggregator (`aggregate_raster`, `utils/lcz4r.py` lines 457-489) -/

/-- Nodata sentinel of the pipeline (`new_nodata = 255` in `lcz_get_map`,
hard-coded in `aggregate_raster` and `raster_to_polygons`). -/
def nodata : Nat := 255

/-- The block `data[i*factor:(i+1)*factor, j*factor:(j+1)*factor]`,
flattened row-major. -/
def blockPixels (data : List (List Nat)) (factor i j : Nat) : List Nat :=
  (((data.drop (i * factor)).take factor).map
    (fun row => (row.drop (j * factor)).take factor)).flatten

/-- Model of `block[block != 255]`: the non-nodata pixels of a block. -/
def nonNodata (block : List Nat) : List Nat :=
  block.filter (fun v => v ≠ nodata)

/-- The parallel `(values, counts)` output of
`np.unique(block[block != 255], return_counts=True)`, zipped. -/
def modePairs (block : List Nat) : List (Nat × Nat) :=
  (npUnique (nonNodata block)).map (fun v => (v, (nonNodata block).count v))

/-- Majority vote of one block: `values[np.argmax(counts)]`; `none` when
the block has no non-nodata pixel (`len(values) == 0`). -/
def blockMode (block : List Nat) : Option Nat :=
  (firstMax (modePairs block)).map (fun p => p.1)

/-- The six coefficients of an `affine.Affine` transform. -/
structure Affine where
  a : ℚ
  b : ℚ
  c : ℚ
  d : ℚ
  e : ℚ
  f : ℚ
deriving DecidableEq, Repr

/-- Affine composition `t1 * t2` (apply `t2` first, then `t1`). -/
def Affine.mul (t1 t2 : Affine) : Affine :=
  { a := t1.a * t2.a + t1.b * t2.d
    b := t1.a * t2.b + t1.b * t2.e
    c := t1.a * t2.c + t1.b * t2.f + t1.c
    d := t1.d * t2.a + t1.e * t2.d
    e := t1.d * t2.b + t1.e * t2.e
    f := t1.d * t2.c + t1.e * t2.f + t1.f }

/-- Model of `Affine.scale(s)`: pure scaling transform. -/
def Affine.scale (s : ℚ) : Affine := ⟨s, 0, 0, 0, s, 0⟩

/-- Model of `aggregate_raster(data, transform, factor)`: the output grid has
shape `(height // factor, width // factor)`, is initialised to `255`,
and cell `(i, j)` is overwritten with the majority value of its block
whenever the block has at least one non-nodata pixel; the transform is
`transform * transform.scale(factor)`. -/
def aggregate_raster (data : List (List Nat)) (transform : Affine) (factor : Nat) :
    List (List Nat) × Affine :=
  let height := data.length
  let width := (data.headD []).length
  let new_height := height / factor
  let new_width := width / factor
  let aggregated := (List.range new_height).map (fun i =>
    (List.range new_width).map (fun j =>
      match blockMode (blockPixels data factor i j) with
      | none => nodata
      | some v => v))
  (aggregated, transform.mul (Affine.scale (factor : ℚ)))

/-- Cell access `g[i][j]` as an `Option`. -/
def cell (g : List (List Nat)) (i j : Nat) : Option Nat :=
  g[i]?.bind (fun row => row[j]?)

/-! ## Error taxonomy

The exceptions the pipeline raises: the built-in `ValueError` /
`ConnectionError` and the custom `GeocodeError` /
`DataProcessingError` classes (`utils/lcz4r.py` lines 329-336). -/

inductive LczError where
  | valueError (msg : String)
  | geocodeError (msg : String)
  | connectionError (msg : String)
  | dataProcessingError (msg : String)
deriving DecidableEq, Repr

/-! ## Geocoding stage of `lcz_get_map` (`utils/lcz4r.py` lines 157-211) -/

def geocode_retries : Nat := 3

/-- The query string of geocoding attempt `attempt` (0-based): direct
search, then country-qualified (unless the name already contains a
comma), then the generic `" city"` suffix. -/
def geocodeQuery (city : String) (attempt : Nat) : String :=
  if attempt = 0 then city
  else if attempt = 1 then
    if city.contains ',' then city else city ++ ", Brazil"
  else city ++ " city"

/-- The `GeocodeError` message raised after every attempt failed
(`utils/lcz4r.py` lines 202-208): it carries remediation suggestions
(try `"city, Brazil"`, try `"city city"`, check the spelling) and the
string of the last underlying error. -/
def geocodeFailMsg (city : String) (lastError : Option String) : String :=
  "Não foi possível encontrar a cidade '" ++ city ++ "'. " ++
  "Verifique se o nome está correto e tente variações como '" ++ city ++
  ", Brazil' ou '" ++ city ++ " city'. " ++
  "Último erro: " ++ (match lastError with | some e => e | none => "None")

/-- The loop `for geocode_attempt in range(geocode_retries)`:
`attempts` are the remaining attempt indices, `lastError` the last
stored geocoding error.  The `time.sleep` backoff between attempts has
no observable effect on the result and is not modelled. -/
def geocodeLoop {α : Type} (geocode : String → Except String α) (city : String) :
    List Nat → Option String → Except LczError α
  | [], lastError => .error (.geocodeError (geocodeFailMsg city lastError))
  | attempt :: rest, _lastError =>
    match geocode (geocodeQuery city attempt) with
    | .ok gdf => .ok gdf
    | .error e => geocodeLoop geocode city rest (some e)

/-- Etapa 1 of `lcz_get_map`: geocode `city` with up to
`geocode_retries` differently-formulated attempts; the external
geocoding service (`ox.geocode_to_gdf`) is the oracle `geocode`. -/
def geocodeStage {α : Type} (geocode : String → Except String α) (city : String) :
    Except LczError α :=
  geocodeLoop geocode city (List.range geocode_retries) none

/-- Model of `lcz_get_map` at the granularity the claims need: the `city`/`roi`
argument validation, the geocoding stage, then the download/clip stage
(Etapa 2, with its own network retry loop) abstracted as the oracle
`fetchClip`, which only runs once a boundary is resolved. -/
def lcz_get_map {α β : Type} (geocode : String → Except String α)
    (fetchClip : α → Except LczError β)
    (city : Option String) (roi : Option α) : Except LczError β :=
  match city, roi with
  | none, none => .error (.valueError "Forneça um nome de cidade ou um polígono ROI")
  | some c, _ => (geocodeStage geocode c).bind fetchClip
  | none, some r => fetchClip r

/-! ## Class Catalog (`LCZ_INFO`, `utils/lcz4r.py` lines 36-119) -/

/-- One row of the `LCZ_INFO` reference table. -/
structure ClassDefinition where
  lcz : Nat
  zcl_classe : String
  descricao : String
  efeito_temp : String
  ilha_calor : String
  intervencao : String
deriving DecidableEq, Repr

/-- The static 17-row catalog, codes 1-17 in order. -/
def LCZ_INFO : List ClassDefinition := [
  ⟨1, "LCZ 1", "Compact high-rise – arranha-céus compactos",
    "Maior retenção de calor urbano, forte aquecimento noturno.",
    "Muito forte contribuição à ilha de calor urbana.",
    "Criar ventilação urbana, áreas verdes verticais, telhados frios."⟩,
  ⟨2, "LCZ 2", "Compact midrise – edifícios médios compactos",
    "Alta absorção de calor, pouca ventilação.",
    "Forte contribuição à ilha de calor urbana.",
    "Ampliar áreas verdes, incentivar telhados verdes/reforçar ventilação."⟩,
  ⟨3, "LCZ 3", "Compact low-rise – edificações baixas compactas",
    "Aquecimento elevado, mas menos intenso que arranha-céus.",
    "Forte contribuição, mas menor que LCZ 1–2.",
    "Manter corredores de ventilação e arborização."⟩,
  ⟨4, "LCZ 4", "Open high-rise – torres altas espaçadas",
    "Aquecimento reduzido pela ventilação, mas forte calor diurno.",
    "Contribuição moderada devido à ventilação.",
    "Integrar áreas verdes entre torres, favorecer ventilação cruzada."⟩,
  ⟨5, "LCZ 5", "Open midrise – edifícios médios espaçados",
    "Aquecimento moderado, ventilação razoável.",
    "Contribuição moderada.",
    "Preservar ventilação e arborizar ruas."⟩,
  ⟨6, "LCZ 6", "Open low-rise – casas baixas espaçadas",
    "Aquecimento leve, efeito térmico relativamente baixo.",
    "Contribuição baixa.",
    "Expandir vegetação urbana e reduzir impermeabilização."⟩,
  ⟨7, "LCZ 7", "Lightweight low-rise – construções leves, informais",
    "Materiais leves podem aquecer rapidamente durante o dia.",
    "Contribuição variável, geralmente moderada.",
    "Melhorar infraestrutura urbana e aumentar vegetação."⟩,
  ⟨8, "LCZ 8", "Large low-rise – galpões, shoppings, indústrias",
    "Superfícies extensas acumulam calor e irradiam à noite.",
    "Pode gerar ilhas de calor locais industriais/comerciais.",
    "Aplicar coberturas frias, reduzir pavimentação impermeável."⟩,
  ⟨9, "LCZ 9", "Sparsely built – edificações esparsas",
    "Aquecimento baixo a moderado, dependendo da densidade.",
    "Contribuição baixa, mas pode acumular calor localmente.",
    "Evitar adensamento excessivo, introduzir arborização."⟩,
  ⟨10, "LCZ 10", "Heavy industry – áreas industriais pesadas",
    "Alto aquecimento devido a superfícies industriais impermeáveis.",
    "Contribuição alta, especialmente noturna.",
    "Controlar emissões e aumentar arborização periférica."⟩,
  ⟨11, "LCZ A", "Dense trees – florestas urbanas densas",
    "Resfriamento significativo por sombreamento e evapotranspiração.",
    "Mitigação significativa da ilha de calor.",
    "Preservar e ampliar parques urbanos."⟩,
  ⟨12, "LCZ B", "Scattered trees – árvores dispersas",
    "Redução moderada da temperatura, com ventilação importante.",
    "Mitigação moderada.",
    "Aumentar densidade arbórea e conectar corredores verdes."⟩,
  ⟨13, "LCZ C", "Bush, scrub – vegetação arbustiva",
    "Pequeno efeito de resfriamento; limitada evapotranspiração.",
    "Mitigação leve.",
    "Revegetar e controlar ocupação irregular."⟩,
  ⟨14, "LCZ D", "Low plants – gramados, campos",
    "Suaviza temperaturas durante o dia, pouco efeito noturno.",
    "Mitigação leve a moderada.",
    "Expandir áreas permeáveis e gramados."⟩,
  ⟨15, "LCZ E", "Bare rock or paved – solo exposto/pavimento",
    "Pode intensificar calor local (ilha de calor de superfície).",
    "Pode intensificar calor local (ilha de calor de superfície).",
    "Substituir por pavimentos frios, introduzir arborização."⟩,
  ⟨16, "LCZ F", "Bare soil or sand – solo nu ou areia",
    "Contribuição moderada de superfície nua.",
    "Contribuição moderada de superfície nua.",
    "Revegetar áreas expostas ou estabilizar solos."⟩,
  ⟨17, "LCZ G", "Water – rios, lagos, oceanos",
    "Mitiga a ilha de calor, pode até resfriar microclimas.",
    "Mitiga a ilha de calor, pode até resfriar microclimas.",
    "Proteger e integrar áreas aquáticas ao tecido urbano."⟩]

/-! ## Geometry model

A polygon geometry is abstracted to exactly what the claims observe of
it: its planar area in the coordinates it currently carries (`rawArea`,
in the squared unit of the working CRS — square degrees for a geographic
CRS), the planar area it would have after reprojection to the equal-area
Mollweide projection `ESRI:54009` (`mollweideAreaM2`, in m²), and
shapely validity. -/

structure Geometry where
  rawArea : ℚ
  mollweideAreaM2 : ℚ
  isValid : Bool
deriving DecidableEq, Repr

/-! ## Dissolver/Enricher (`process_lcz_map`, `utils/lcz4r.py` lines 523-560)

`process_lcz_map` chains `aggregate_raster`, `raster_to_polygons` and
the dissolve/enrich tail modelled here.  The claims about this stage
quantify over arbitrary vectorizer outputs, so the connected-component
extraction of `raster_to_polygons` itself stays un-modelled and
`dissolve_and_enrich` takes the vector features directly. -/

/-- A row of the `raster_to_polygons` output: one polygon tagged with
its class code (the `lcz` column). -/
structure Feature where
  lcz : Nat
  geom : Geometry
deriving DecidableEq, Repr

/-- The `unary_union` of one dissolve group.  The polygons of one class
come from interior-disjoint grid cells, so the union's area is the sum
of the parts in either coordinate system; the union is valid when the
parts are. -/
def unionGeoms (gs : List Geometry) : Geometry :=
  { rawArea := (gs.map (·.rawArea)).sum
    mollweideAreaM2 := (gs.map (·.mollweideAreaM2)).sum
    isValid := gs.all (·.isValid) }

/-- Model of `polygons.dissolve(by="lcz").reset_index()`: group the rows by class
code (pandas sorts the group keys ascending) and merge each group's
geometries. -/
def dissolve (rows : List Feature) : List Feature :=
  (npUnique (rows.map (·.lcz))).map (fun k =>
    { lcz := k, geom := unionGeoms ((rows.filter (fun r => r.lcz = k)).map (·.geom)) })

/-- An output row of `process_lcz_map`: the dissolved polygon plus the
catalog columns brought in by `merge(LCZ_INFO, on="lcz", how="left")`
(`none` models the all-NaN catalog fields of an unmatched left row). -/
structure Enriched where
  lcz : Nat
  geom : Geometry
  info : Option ClassDefinition
deriving DecidableEq, Repr

/-- Model of `dissolved.merge(catalog, on="lcz", how="left")`: every left row is
kept; each catalog match produces one output row, and a row without a
match keeps NaN catalog fields instead of being dropped. -/
def mergeLeftCatalog (rows : List Feature) (catalog : List ClassDefinition) :
    List Enriched :=
  rows.flatMap (fun r =>
    match catalog.filter (fun d => d.lcz = r.lcz) with
    | [] => [{ lcz := r.lcz, geom := r.geom, info := none }]
    | ms => ms.map (fun d => { lcz := r.lcz, geom := r.geom, info := some d }))

/-- The dissolve-and-enrich tail of `process_lcz_map` (lines 551-558).
The final column-name cleanup (`col.replace("_x", "")...`) renames
columns only and changes no row. -/
def dissolve_and_enrich (rows : List Feature) : List Enriched :=
  mergeLeftCatalog (dissolve rows) LCZ_INFO

/-! ## The enriched GeoDataFrame

The frame handled by `enhance_lcz_data`, `lcz_cal_area` and
`validate_lcz_data`: a working CRS (`none` = undefined), the presence of
the `zcl_classe` and `area_km2` columns, and the rows.  A row's
`area_km2` value is meaningful only while the frame's `hasAreaCol` is
set. -/

structure CRSInfo where
  is_geographic : Bool
deriving DecidableEq, Repr

structure ERow where
  zcl_classe : String
  geom : Geometry
  area_km2 : ℚ
deriving DecidableEq, Repr

structure GeoDataFrame where
  crs : Option CRSInfo
  hasZclCol : Bool
  hasAreaCol : Bool
  rows : List ERow
deriving DecidableEq, Repr

/-- Model of `gdf.to_crs('ESRI:54009')`: reproject every geometry into the
Mollweide equal-area projection; afterwards a geometry's planar area is
its Mollweide area, and the frame's CRS is projected, not geographic. -/
def GeoDataFrame.to_crs_mollweide (g : GeoDataFrame) : GeoDataFrame :=
  { g with
    crs := some ⟨false⟩
    rows := g.rows.map (fun r =>
      { r with geom := { r.geom with rawArea := r.geom.mollweideAreaM2 } }) }

/-- Model of `gdf["area_km2"] = gdf.geometry.area / 1e6`: planar area of the
geometry's current coordinates, divided by 10⁶. -/
def setAreaColumn (g : GeoDataFrame) : GeoDataFrame :=
  { g with
    hasAreaCol := true
    rows := g.rows.map (fun r => { r with area_km2 := r.geom.rawArea / 1000000 }) }

/-- Model of `enhance_lcz_data` (`utils/lcz4r.py` lines 562-582): copy the frame
and attach `area_km2 = geometry.area / 1e6`, measured directly in
whatever CRS the frame carries — the function performs no
reprojection. -/
def enhance_lcz_data (g : GeoDataFrame) : GeoDataFrame :=
  setAreaColumn g

/-! ## Area Statistics Engine (`lcz_cal_area`, `utils/lcz4r.py` lines 585-687) -/

/-- Model of `.round(3)` on a float value.  (numpy rounds half-to-even; no claim
sits on a rounding tie, so the tie convention of `round` is
immaterial.) -/
def round3 (q : ℚ) : ℚ := ((round (q * 1000) : ℤ) : ℚ) / 1000

/-- Model of `.round(2)` on a float value. -/
def round2 (q : ℚ) : ℚ := ((round (q * 100) : ℤ) : ℚ) / 100

/-- One row of the `area_stats` table.  The source's `area_std_km2`
column is a sample standard deviation — an irrational square root in
general — so the embedding carries its square `area_var_km2` instead
(`none` for the NaN std of a single-polygon class); no claim reads this
column. -/
structure StatRow where
  zcl_classe : String
  area_total_km2 : ℚ
  num_poligonos : Nat
  area_media_km2 : ℚ
  area_var_km2 : Option ℚ
  area_min_km2 : ℚ
  area_max_km2 : ℚ
  percentual : Option ℚ
deriving DecidableEq, Repr

/-- Model of `gdf_work.groupby('zcl_classe').agg({'area_km2': ['sum', 'count',
'mean', 'std', 'min', 'max']}).round(3)`, flattened and
`reset_index()`-ed: one row per distinct class label, in ascending
(lexicographic) label order, `percentual` not yet computed. -/
def groupStats (rows : List ERow) : List StatRow :=
  (npUnique (rows.map (·.zcl_classe))).map (fun k =>
    let as := (rows.filter (fun r => r.zcl_classe = k)).map (·.area_km2)
    let n := as.length
    let mean := as.sum / (n : ℚ)
    { zcl_classe := k
      area_total_km2 := round3 as.sum
      num_poligonos := n
      area_media_km2 := round3 mean
      area_var_km2 := if n ≤ 1 then none else
        some ((as.map (fun x => (x - mean) ^ 2)).sum / ((n : ℚ) - 1))
      area_min_km2 := round3 ((as.min?).getD 0)
      area_max_km2 := round3 ((as.max?).getD 0)
      percentual := none })

/-- Model of `(x / total * 100).round(2)`; `none` models the non-finite float
(NaN or ±inf) that a zero grand total produces — the source divides
unconditionally and module-level `warnings.filterwarnings("ignore")`
suppresses even the runtime warning. -/
def pctOfTotal (x total : ℚ) : Option ℚ :=
  if total = 0 then none else some (round2 (x / total * 100))

/-- The fixed class→color mapping `cores_lcz` of `lcz_cal_area`. -/
def cores_lcz : List (String × String) := [
  ("LCZ 1", "#910613"), ("LCZ 2", "#D9081C"), ("LCZ 3", "#FF0A22"),
  ("LCZ 4", "#C54F1E"), ("LCZ 5", "#FF6628"), ("LCZ 6", "#FF985E"),
  ("LCZ 7", "#FDED3F"), ("LCZ 8", "#BBBBBB"), ("LCZ 9", "#FFCBAB"),
  ("LCZ 10", "#565656"), ("LCZ A", "#006A18"), ("LCZ B", "#00A926"),
  ("LCZ C", "#628432"), ("LCZ D", "#B5DA7F"), ("LCZ E", "#000000"),
  ("LCZ F", "#FCF7B1"), ("LCZ G", "#656BFA")]

structure PlotData where
  classes : List String
  areas : List ℚ
  percentuais : List (Option ℚ)
  num_poligonos : List Nat
  cores : List (String × String)
deriving DecidableEq, Repr

/-- The `summary` dictionary.  The `iloc[0]` reads are modelled with
`head?` (the table is never empty on the success path, since the input
frame was checked non-empty). -/
structure SummaryR where
  total_area_km2 : ℚ
  num_classes : Nat
  num_total_poligonos : Nat
  classe_dominante : Option String
  area_classe_dominante_km2 : Option ℚ
  percentual_classe_dominante : Option ℚ
deriving DecidableEq, Repr

structure CalResult where
  stats : List StatRow
  plot_data : PlotData
  summary : SummaryR
deriving DecidableEq, Repr

/-- The `gdf_work` frame of `lcz_cal_area` once the `area_km2` column is
guaranteed:

    gdf_work = gdf.copy()
    if 'area_km2' not in gdf_work.columns:
        if gdf_work.crs and gdf_work.crs.is_geographic:
            gdf_work = gdf_work.to_crs('ESRI:54009')
        gdf_work['area_km2'] = gdf_work.geometry.area / 1e6
-/
def calAreaWork (g : GeoDataFrame) : GeoDataFrame :=
  if ¬ g.hasAreaCol then
    let gdf_work :=
      match g.crs with
      | some c => if c.is_geographic then g.to_crs_mollweide else g
      | none => g
    setAreaColumn gdf_work
  else g

/-- The body of `lcz_cal_area` after its input checks (with the default
`return_stats=True, return_plot_data=True`). -/
def calArea (g : GeoDataFrame) : CalResult :=
  let gdf_work := calAreaWork g
  let area_stats := groupStats gdf_work.rows
  -- total_area = area_stats['area_total_km2'].sum()
  let total_area := (area_stats.map (·.area_total_km2)).sum
  -- area_stats['percentual'] = (area_stats['area_total_km2'] / total_area * 100).round(2)
  let area_stats := area_stats.map (fun r =>
    { r with percentual := pctOfTotal r.area_total_km2 total_area })
  -- area_stats = area_stats.sort_values('area_total_km2', ascending=False)
  let area_stats := sortLe
    (fun a b => decide (b.area_total_km2 ≤ a.area_total_km2)) area_stats
  let plot_data : PlotData :=
    { classes := area_stats.map (·.zcl_classe)
      areas := area_stats.map (·.area_total_km2)
      percentuais := area_stats.map (·.percentual)
      num_poligonos := area_stats.map (·.num_poligonos)
      cores := cores_lcz }
  let summary : SummaryR :=
    { total_area_km2 := total_area
      num_classes := area_stats.length
      num_total_poligonos := (area_stats.map (·.num_poligonos)).sum
      classe_dominante := (area_stats.head?).map (·.zcl_classe)
      area_classe_dominante_km2 := (area_stats.head?).map (·.area_total_km2)
      percentual_classe_dominante := (area_stats.head?).bind (·.percentual) }
  { stats := area_stats, plot_data := plot_data, summary := summary }

/-- Model of `lcz_cal_area` (`utils/lcz4r.py` lines 585-687), with the in-place
discipline made explicit: the second component of a successful result is
the caller's frame object as the call leaves it.  Every statement of the
source operates on `gdf_work = gdf.copy()` or on freshly built frames,
never on the argument object, so the returned state is the argument
itself. -/
def lcz_cal_area (gdf : Option GeoDataFrame) :
    Except LczError (CalResult × GeoDataFrame) :=
  match gdf with
  | none => .error (.valueError "GeoDataFrame vazio ou None fornecido")
  | some g =>
    if g.rows.length = 0 then
      .error (.valueError "GeoDataFrame vazio ou None fornecido")
    else if ¬ g.hasZclCol then
      .error (.valueError "Colunas obrigatórias ausentes: ['zcl_classe']")
    else
      .ok (calArea g, g)

/-! ## Validator (`validate_lcz_data`, `utils/lcz4r.py` lines 752-815) -/

/-- The `validation_result` dictionary. -/
structure Report where
  valid : Bool
  warnings : List String
  errors : List String
  info : List String
deriving DecidableEq, Repr

/-- The recognized class symbols:
`[f"LCZ {i}" for i in range(1, 11)] + [f"LCZ {c}" for c in 'ABCDEFG']`. -/
def valid_classes : List String :=
  ["LCZ 1", "LCZ 2", "LCZ 3", "LCZ 4", "LCZ 5", "LCZ 6", "LCZ 7", "LCZ 8",
   "LCZ 9", "LCZ 10", "LCZ A", "LCZ B", "LCZ C", "LCZ D", "LCZ E", "LCZ F", "LCZ G"]

/-- Model of `validate_lcz_data` (`utils/lcz4r.py` lines 752-815).  The function
is total: the `try/except Exception` wrapper converts any internal
exception — here, the `KeyError` of subscripting the missing
`zcl_classe` column at the class check — into a recorded error, so a
report is always returned and the function never raises.  Diagnostic
strings whose exact formatting no claim reads are carried in abridged
form. -/
def validate_lcz_data (gdf : Option GeoDataFrame) : Report :=
  let r0 : Report := { valid := true, warnings := [], errors := [], info := [] }
  match gdf with
  | none => { r0 with valid := false, errors := ["GeoDataFrame vazio ou None"] }
  | some g =>
    if g.rows.length = 0 then
      { r0 with valid := false, errors := ["GeoDataFrame vazio ou None"] }
    else
      -- required columns (the geometry column always exists on a GeoDataFrame)
      let r1 := if ¬ g.hasZclCol then
          { r0 with
            valid := false
            errors := r0.errors ++ ["Colunas obrigatórias ausentes: ['zcl_classe']"] }
        else r0
      -- invalid geometries: warning only
      let invalidGeoms := (g.rows.filter (fun r => ¬ r.geom.isValid)).length
      let r2 := if invalidGeoms > 0 then
          { r1 with warnings := r1.warnings ++
            [toString invalidGeoms ++ " geometrias inválidas encontradas"] }
        else r1
      -- gdf[~gdf['zcl_classe'].isin(valid_classes)] raises KeyError when
      -- the column is absent; the except-clause records it and returns.
      if ¬ g.hasZclCol then
        { r2 with
          valid := false
          errors := r2.errors ++ ["Erro durante validação: 'zcl_classe'"] }
      else
        let invalidClasses := npUnique ((g.rows.filter
            (fun r => ¬ r.zcl_classe ∈ valid_classes)).map (·.zcl_classe))
        let r3 := if invalidClasses.length > 0 then
            { r2 with warnings := r2.warnings ++
              ["Classes LCZ não reconhecidas: " ++ toString invalidClasses] }
          else r2
        let r4 := match g.crs with
          | none => { r3 with warnings := r3.warnings ++
              ["Sistema de coordenadas (CRS) não definido"] }
          | some _ => r3
        let r5 := { r4 with info := r4.info ++
            ["Total de registros: " ++ toString g.rows.length,
             "Classes LCZ presentes: " ++
               toString (npUnique (g.rows.map (·.zcl_classe))).length] }
        if g.hasAreaCol then
          { r5 with info := r5.info ++
            ["Área total: " ++ toString (round2 ((g.rows.map (·.area_km2)).sum)) ++ " km²"] }
        else r5

/-! ## Concrete frames used to instantiate the claims -/

/-- A geographic-CRS frame with one zero-area polygon and an existing
`area_km2` column: its grand total area is zero. -/
def gZeroArea : GeoDataFrame :=
  { crs := some ⟨true⟩
    hasZclCol := true
    hasAreaCol := true
    rows := [⟨"LCZ 1", ⟨0, 0, true⟩, 0⟩] }

/-- A frame with two classes whose total areas tie at 5 km². -/
def gTieC4 : GeoDataFrame :=
  { crs := some ⟨true⟩
    hasZclCol := true
    hasAreaCol := true
    rows := [⟨"LCZ 2", ⟨0, 0, true⟩, 5⟩, ⟨"LCZ 10", ⟨0, 0, true⟩, 5⟩] }

/-- A geographic-CRS frame without an `area_km2` column; the single
geometry measures 2 (square degrees) in the raw geographic coordinates
and 8·10⁶ m² under the equal-area projection. -/
def gGeoC3 : GeoDataFrame :=
  { crs := some ⟨true⟩
    hasZclCol := true
    hasAreaCol := false
    rows := [⟨"LCZ 1", ⟨2, 8000000, true⟩, 0⟩] }

/-- The catalog position of a class label: its row index in `LCZ_INFO`,
i.e. the codes 1-17 order. -/
def catalogIdx (s : String) : Nat := (LCZ_INFO.map (·.zcl_classe)).indexOf s

/-- A small well-formed frame. -/
def gFrameC10 : GeoDataFrame :=
  { crs := some ⟨true⟩
    hasZclCol := true
    hasAreaCol := true
    rows := [⟨"LCZ 3", ⟨1, 1000000, true⟩, 7⟩, ⟨"LCZ 5", ⟨2, 2000000, true⟩, 4⟩] }

/-! ## Theorems -/

/-! ### Lemmas about the helpers -/

theorem mem_insertUniq {α : Type} [LinearOrder α] (x a : α) (l : List α) :
    a ∈ insertUniq x l ↔ a = x ∨ a ∈ l := by
  induction l with
  | nil => simp [insertUniq]
  | cons y ys ih =>
    by_cases hlt : x < y
    · simp [insertUniq, hlt]
    · by_cases heq : x = y
      · subst heq
        rw [insertUniq, if_neg hlt, if_pos rfl]
        simp only [List.mem_cons]
        tauto
      · simp only [insertUniq, if_neg hlt, if_neg heq, List.mem_cons, ih]
        tauto

theorem mem_npUnique {α : Type} [LinearOrder α] (a : α) (l : List α) :
    a ∈ npUnique l ↔ a ∈ l := by
  induction l with
  | nil => simp [npUnique]
  | cons x xs ih =>
    simp only [npUnique, List.foldr] at *
    rw [mem_insertUniq, ih, List.mem_cons]

theorem pairwise_insertUniq {α : Type} [LinearOrder α] (x : α) (l : List α)
    (hl : l.Pairwise (· < ·)) : (insertUniq x l).Pairwise (· < ·) := by
  induction l with
  | nil => simp [insertUniq]
  | cons y ys ih =>
    rcases List.pairwise_cons.mp hl with ⟨hy, hys⟩
    by_cases hlt : x < y
    · simp only [insertUniq, if_pos hlt]
      refine List.pairwise_cons.mpr ⟨?_, hl⟩
      intro b hb
      rcases List.mem_cons.mp hb with hb | hb
      · exact hb ▸ hlt
      · exact lt_trans hlt (hy b hb)
    · by_cases heq : x = y
      · simpa [insertUniq, hlt, heq] using hl
      · have hyx : y < x := by
          rcases lt_trichotomy x y with h | h | h
          · exact absurd h hlt
          · exact absurd h heq
          · exact h
        simp only [insertUniq, if_neg hlt, if_neg heq]
        refine List.pairwise_cons.mpr ⟨?_, ih hys⟩
        intro b hb
        rcases (mem_insertUniq x b ys).mp hb with hb | hb
        · exact hb ▸ hyx
        · exact hy b hb

theorem pairwise_npUnique {α : Type} [LinearOrder α] (l : List α) :
    (npUnique l).Pairwise (· < ·) := by
  induction l with
  | nil => exact List.Pairwise.nil
  | cons x xs ih => exact pairwise_insertUniq x _ ih

theorem insertLe_perm {α : Type} (le : α → α → Bool) (x : α) (l : List α) :
    List.Perm (insertLe le x l) (x :: l) := by
  induction l with
  | nil => exact List.Perm.refl _
  | cons y ys ih =>
    by_cases h : le x y
    · simp only [insertLe, if_pos h]
      exact List.Perm.refl _
    · simp only [insertLe, if_neg h]
      exact List.Perm.trans (List.Perm.cons y ih) (List.Perm.swap x y ys)

theorem sortLe_perm {α : Type} (le : α → α → Bool) (l : List α) :
    List.Perm (sortLe le l) l := by
  induction l with
  | nil => exact List.Perm.refl _
  | cons x xs ih =>
    exact List.Perm.trans (insertLe_perm le x (sortLe le xs)) (List.Perm.cons x ih)

theorem mem_sortLe {α : Type} (le : α → α → Bool) (a : α) (l : List α) :
    a ∈ sortLe le l ↔ a ∈ l :=
  (sortLe_perm le l).mem_iff

/-- Stability of `insertLe`: inserting `x` into a list sorted by `le`
keeps the combined "`le` and, on comparator ties, the input-order
relation `S`" pairwise property, provided `x` preceded everything in the
input. -/
theorem pairwise_insertLe {α : Type} (le : α → α → Bool) (S : α → α → Prop)
    (hletrans : ∀ a b c, le a b = true → le b c = true → le a c = true)
    (hletot : ∀ a b, le a b = true ∨ le b a = true)
    (x : α) (l : List α)
    (hR : l.Pairwise (fun a b => le a b = true ∧ (le b a = true → S a b)))
    (hS : ∀ y ∈ l, S x y) :
    (insertLe le x l).Pairwise (fun a b => le a b = true ∧ (le b a = true → S a b)) := by
  induction l with
  | nil => simp [insertLe]
  | cons y ys ih =>
    rcases List.pairwise_cons.mp hR with ⟨hy, hys⟩
    by_cases h : le x y
    · simp only [insertLe, if_pos h]
      refine List.pairwise_cons.mpr ⟨?_, hR⟩
      intro b hb
      rcases List.mem_cons.mp hb with hb | hb
      · exact hb ▸ ⟨h, fun _ => hS y (List.mem_cons_self y ys)⟩
      · exact ⟨hletrans x y b h (hy b hb).1, fun _ => hS b (List.mem_cons_of_mem y hb)⟩
    · simp only [insertLe, if_neg h]
      refine List.pairwise_cons.mpr ⟨?_, ih hys (fun b hb => hS b (List.mem_cons_of_mem y hb))⟩
      intro b hb
      rcases List.mem_cons.mp ((insertLe_perm le x ys).mem_iff.mp hb) with hb | hb
      · refine ⟨?_, fun hxy => absurd (hb ▸ hxy) h⟩
        rcases hletot x y with ht | ht
        · exact absurd ht h
        · exact hb.symm ▸ ht
      · exact hy b hb

/-- Stability of `sortLe`: if the input is pairwise `S`, the output
is sorted by `le`, and any two comparator-tied elements additionally
satisfy `S` in output order. -/
theorem pairwise_sortLe {α : Type} (le : α → α → Bool) (S : α → α → Prop)
    (hletrans : ∀ a b c, le a b = true → le b c = true → le a c = true)
    (hletot : ∀ a b, le a b = true ∨ le b a = true)
    (l : List α) (hl : l.Pairwise S) :
    (sortLe le l).Pairwise (fun a b => le a b = true ∧ (le b a = true → S a b)) := by
  induction l with
  | nil => exact List.Pairwise.nil
  | cons x xs ih =>
    rcases List.pairwise_cons.mp hl with ⟨hx, hxs⟩
    exact pairwise_insertLe le S hletrans hletot x (sortLe le xs) (ih hxs)
      (fun y hy => hx y ((mem_sortLe le y xs).mp hy))

theorem firstMax_eq_none {l : List (Nat × Nat)} : firstMax l = none ↔ l = [] := by
  cases l with
  | nil => simp [firstMax]
  | cons p rest =>
    simp only [firstMax]
    cases firstMax rest with
    | none => simp
    | some q =>
      by_cases h : q.2 > p.2 <;> simp [h]

theorem firstMax_mem {l : List (Nat × Nat)} {p : Nat × Nat} (h : firstMax l = some p) :
    p ∈ l := by
  induction l generalizing p with
  | nil => simp [firstMax] at h
  | cons q rest ih =>
    rw [firstMax] at h
    cases hr : firstMax rest with
    | none =>
      rw [hr] at h
      exact (Option.some_inj.mp h) ▸ List.mem_cons_self q rest
    | some r =>
      rw [hr] at h
      have h2 : (if r.2 > q.2 then some r else some q) = some p := h
      by_cases hgt : r.2 > q.2
      · rw [if_pos hgt] at h2
        have hp : r = p := Option.some_inj.mp h2
        exact List.mem_cons_of_mem q (hp ▸ ih hr)
      · rw [if_neg hgt] at h2
        exact (Option.some_inj.mp h2) ▸ List.mem_cons_self q rest

theorem firstMax_isMax {l : List (Nat × Nat)} {p : Nat × Nat} (h : firstMax l = some p) :
    ∀ q ∈ l, q.2 ≤ p.2 := by
  induction l generalizing p with
  | nil => simp [firstMax] at h
  | cons q rest ih =>
    intro w hw
    rw [firstMax] at h
    cases hr : firstMax rest with
    | none =>
      have hnil : rest = [] := firstMax_eq_none.mp hr
      rw [hr] at h
      rcases List.mem_cons.mp hw with hw | hw
      · exact le_of_eq (congrArg Prod.snd (hw.trans (Option.some_inj.mp h)))
      · rw [hnil] at hw; simp at hw
    | some r =>
      rw [hr] at h
      have h2 : (if r.2 > q.2 then some r else some q) = some p := h
      by_cases hgt : r.2 > q.2
      · rw [if_pos hgt] at h2
        have hp : r = p := Option.some_inj.mp h2
        rcases List.mem_cons.mp hw with hw | hw
        · exact hw ▸ (hp ▸ le_of_lt hgt)
        · exact hp ▸ ih hr w hw
      · rw [if_neg hgt] at h2
        have hp : q = p := Option.some_inj.mp h2
        rcases List.mem_cons.mp hw with hw | hw
        · exact le_of_eq (congrArg Prod.snd (hw.trans hp))
        · exact hp ▸ le_trans (ih hr w hw) (le_of_not_lt hgt)

/-- On a list whose values are strictly increasing, `firstMax` returns
the pair with the least value among those attaining the maximal count —
exactly `values[np.argmax(counts)]` for the sorted output of
`np.unique`. -/
theorem firstMax_least_of_ties {l : List (Nat × Nat)} {p : Nat × Nat}
    (hsort : l.Pairwise (fun a b => a.1 < b.1)) (h : firstMax l = some p) :
    ∀ q ∈ l, q.2 = p.2 → p.1 ≤ q.1 := by
  induction l with
  | nil => simp [firstMax] at h
  | cons q rest ih =>
    rcases List.pairwise_cons.mp hsort with ⟨hq, hrest⟩
    intro w hw hw2
    rw [firstMax] at h
    cases hr : firstMax rest with
    | none =>
      have hnil : rest = [] := firstMax_eq_none.mp hr
      rw [hr] at h
      have hp : q = p := Option.some_inj.mp h
      rcases List.mem_cons.mp hw with hw | hw
      · exact le_of_eq (congrArg Prod.fst (hp.symm.trans hw.symm))
      · rw [hnil] at hw; simp at hw
    | some r =>
      rw [hr] at h
      have h2 : (if r.2 > q.2 then some r else some q) = some p := h
      by_cases hgt : r.2 > q.2
      · rw [if_pos hgt] at h2
        have hp : r = p := Option.some_inj.mp h2
        rcases List.mem_cons.mp hw with hw | hw
        · exfalso
          have hq2 : q.2 = p.2 := hw ▸ hw2
          have hr2 : r.2 = p.2 := congrArg Prod.snd hp
          omega
        · exact ih hrest (hp ▸ hr) w hw hw2
      · rw [if_neg hgt] at h2
        have hp : q = p := Option.some_inj.mp h2
        rcases List.mem_cons.mp hw with hw | hw
        · exact le_of_eq (congrArg Prod.fst (hp.symm.trans hw.symm))
        · exact le_of_lt (hp ▸ hq w hw)

theorem npUnique_eq_nil {α : Type} [LinearOrder α] {l : List α} :
    npUnique l = [] ↔ l = [] := by
  constructor
  · intro h
    cases l with
    | nil => rfl
    | cons x xs =>
      exfalso
      have : x ∈ npUnique (x :: xs) := (mem_npUnique x _).mpr (List.mem_cons_self x xs)
      rw [h] at this
      simp at this
  · intro h; subst h; rfl

theorem cell_aggregate_raster (data : List (List Nat)) (transform : Affine)
    (factor i j : Nat) (hi : i < data.length / factor)
    (hj : j < (data.headD []).length / factor) :
    cell (aggregate_raster data transform factor).1 i j =
      some (match blockMode (blockPixels data factor i j) with
            | none => nodata
            | some v => v) := by
  simp only [aggregate_raster, cell]
  simp only [List.getElem?_map, List.getElem?_range hi, Option.map_some', Option.some_bind]
  rw [List.getElem?_range hj]
  rfl

/-- The value picked by `blockMode` is a non-nodata pixel of the block,
has maximal occurrence count among the block's non-nodata pixels, and is
the numerically least value attaining that count. -/
theorem blockMode_spec {block : List Nat} {c : Nat}
    (h : blockMode block = some c) :
    c ∈ nonNodata block ∧
    (∀ v ∈ nonNodata block,
      (nonNodata block).count v ≤ (nonNodata block).count c) ∧
    (∀ v ∈ nonNodata block,
      (nonNodata block).count v = (nonNodata block).count c → c ≤ v) := by
  rw [blockMode] at h
  cases hp : firstMax (modePairs block) with
  | none => rw [hp] at h; simp at h
  | some p =>
    rw [hp] at h
    have hpc : p.1 = c := by simpa using h
    obtain ⟨v0, hv0, hv0p⟩ := List.mem_map.mp (firstMax_mem hp)
    have hv0c : v0 = c := by rw [← hpc, ← hv0p]
    have hp2 : p = (c, (nonNodata block).count c) := by
      rw [← hv0p, hv0c]
    rw [hp2] at hp
    refine ⟨hv0c ▸ ((mem_npUnique v0 _).mp hv0), ?_, ?_⟩
    · intro v hv
      exact firstMax_isMax hp _ (List.mem_map.mpr ⟨v, (mem_npUnique v _).mpr hv, rfl⟩)
    · intro v hv hcnt
      have hsorted : (modePairs block).Pairwise (fun a b => a.1 < b.1) := by
        rw [modePairs, List.pairwise_map]
        exact pairwise_npUnique _
      exact firstMax_least_of_ties hsorted hp _
        (List.mem_map.mpr ⟨v, (mem_npUnique v _).mpr hv, rfl⟩) hcnt

/-- The function `blockMode` returns `none` exactly on all-nodata (or empty) blocks. -/
theorem blockMode_eq_none_iff {block : List Nat} :
    blockMode block = none ↔ nonNodata block = [] := by
  constructor
  · intro h
    have hfm : firstMax (modePairs block) = none := by
      cases hfm : firstMax (modePairs block) with
      | none => rfl
      | some p => rw [blockMode, hfm] at h; simp at h
    have h2 := firstMax_eq_none.mp hfm
    rw [modePairs] at h2
    exact npUnique_eq_nil.mp (List.map_eq_nil_iff.mp h2)
  · intro h
    rw [blockMode, modePairs, h]
    rfl

/-- Filtering a list by key equality counts occurrences of the key. -/
theorem length_filter_key {α : Type} (key : α → Nat) (l : List α) (k : Nat) :
    (l.filter (fun d => key d = k)).length = (l.map key).count k := by
  induction l with
  | nil => rfl
  | cons x xs ih =>
    by_cases h : key x = k
    · simp [List.filter_cons, h, List.count_cons, ih]
    · simp [List.filter_cons, h, List.count_cons, ih]

/-- The catalog has at most one row per class code. -/
theorem catalog_filter_length (k : Nat) :
    (LCZ_INFO.filter (fun d => d.lcz = k)).length ≤ 1 := by
  rw [length_filter_key]
  have hmap : LCZ_INFO.map (·.lcz) =
      [1, 2, 3, 4, 5, 6, 7, 8, 9, 10, 11, 12, 13, 14, 15, 16, 17] := rfl
  rw [hmap]
  have hnodup : ([1, 2, 3, 4, 5, 6, 7, 8, 9, 10, 11, 12, 13, 14, 15,
      16, 17] : List Nat).Nodup := by decide
  exact List.nodup_iff_count_le_one.mp hnodup k

/-- A left join against a catalog with unique keys emits exactly one
output row per input row, with the same key. -/
theorem mergeLeftCatalog_map_lcz (rows : List Feature) :
    (mergeLeftCatalog rows LCZ_INFO).map (·.lcz) = rows.map (·.lcz) := by
  induction rows with
  | nil => rfl
  | cons r rest ih =>
    simp only [mergeLeftCatalog, List.flatMap_cons] at *
    rw [List.map_append, ih]
    cases hms : LCZ_INFO.filter (fun d => d.lcz = r.lcz) with
    | nil => rfl
    | cons m ms =>
      have hlen := catalog_filter_length r.lcz
      rw [hms] at hlen
      have hnil : ms = [] := by
        cases ms with
        | nil => rfl
        | cons m2 ms2 => simp at hlen
      subst hnil
      rfl

/-! ## Supporting lemmas about `lcz_cal_area` -/

theorem lcz_cal_area_ok (g : GeoDataFrame) (hne : g.rows.length ≠ 0)
    (hz : g.hasZclCol = true) :
    lcz_cal_area (some g) = .ok (calArea g, g) := by
  simp [lcz_cal_area, hne, hz]

/-- A successful `lcz_cal_area` call always returns `calArea` of the
argument together with the untouched argument. -/
theorem lcz_cal_area_ok_inv (g : GeoDataFrame) (res : CalResult × GeoDataFrame)
    (h : lcz_cal_area (some g) = .ok res) : res = (calArea g, g) := by
  rw [lcz_cal_area] at h
  by_cases h0 : g.rows.length = 0
  · rw [if_pos h0] at h; simp at h
  · rw [if_neg h0] at h
    by_cases h1 : g.hasZclCol = true
    · rw [if_neg (not_not_intro h1)] at h
      exact (Except.ok.inj h).symm
    · rw [if_pos h1] at h; simp at h

/-- The sorted statistics table of `calArea`, spelled out. -/
theorem calArea_stats_def (g : GeoDataFrame) :
    (calArea g).stats =
      sortLe (fun a b => decide (b.area_total_km2 ≤ a.area_total_km2))
        ((groupStats (calAreaWork g).rows).map (fun r =>
          { r with
            percentual :=
              pctOfTotal r.area_total_km2
                (((groupStats (calAreaWork g).rows).map (·.area_total_km2)).sum) })) := rfl

/-- The group rows of `groupStats` carry the distinct class labels in
ascending lexicographic order. -/
theorem groupStats_pairwise_zcl (rows : List ERow) :
    (groupStats rows).Pairwise (fun a b => a.zcl_classe < b.zcl_classe) := by
  rw [groupStats, List.pairwise_map]
  exact pairwise_npUnique _

theorem groupStats_map_zcl (rows : List ERow) :
    (groupStats rows).map (·.zcl_classe) = npUnique (rows.map (·.zcl_classe)) := by
  rw [groupStats, List.map_map]
  exact List.map_id'' (fun _ => rfl) _

/-- With all row areas zero, every per-class rounded total is zero. -/
theorem groupStats_total_zero (rows : List ERow)
    (hzero : ∀ r ∈ rows, r.area_km2 = 0) :
    ∀ s ∈ groupStats rows, s.area_total_km2 = 0 := by
  intro s hs
  rw [groupStats] at hs
  obtain ⟨k, hk, rfl⟩ := List.mem_map.mp hs
  have hsum : ((rows.filter (fun r => r.zcl_classe = k)).map (·.area_km2)).sum = 0 := by
    apply List.sum_eq_zero
    intro x hx
    obtain ⟨r, hr, rfl⟩ := List.mem_map.mp hx
    exact hzero r (List.mem_of_mem_filter hr)
  simp [hsum, round3]

theorem dissolve_map_lcz (rows : List Feature) :
    (dissolve rows).map (·.lcz) = npUnique (rows.map (·.lcz)) := by
  rw [dissolve, List.map_map]
  exact List.map_id'' (fun _ => rfl) _

/-- A feature whose code has no catalog match survives the left join
with `none` catalog fields. -/
theorem mem_mergeLeftCatalog_of_unmatched (rows : List Feature) (r : Feature)
    (hr : r ∈ rows) (hmiss : LCZ_INFO.filter (fun d => d.lcz = r.lcz) = []) :
    ({ lcz := r.lcz, geom := r.geom, info := none } : Enriched) ∈
      mergeLeftCatalog rows LCZ_INFO := by
  rw [mergeLeftCatalog]
  apply List.mem_flatMap.mpr
  exact ⟨r, hr, by rw [hmiss]; simp⟩

/-! ## The claims -/

/-- Claim C2 (confirmed): for every grid, transform, factor and in-range
block in which two class codes `a ≠ b` tie for the highest occurrence
count among the block's non-nodata pixels, the corresponding output cell
of `aggregate_raster` holds a value of maximal count that is `≤` every
code attaining that count — the lowest numeric class code among the
tied ones. -/
theorem aggregate_raster_tie_lowest_code
    (data : List (List Nat)) (transform : Affine) (factor i j a b : Nat)
    (hi : i < data.length / factor)
    (hj : j < (data.headD []).length / factor)
    (ha : a ∈ nonNodata (blockPixels data factor i j))
    (hb : b ∈ nonNodata (blockPixels data factor i j))
    (hab : a ≠ b)
    (hmaxa : ∀ v ∈ nonNodata (blockPixels data factor i j),
      (nonNodata (blockPixels data factor i j)).count v ≤
        (nonNodata (blockPixels data factor i j)).count a)
    (htie : (nonNodata (blockPixels data factor i j)).count b =
      (nonNodata (blockPixels data factor i j)).count a) :
    ∃ c, cell (aggregate_raster data transform factor).1 i j = some c ∧
      c ∈ nonNodata (blockPixels data factor i j) ∧
      (nonNodata (blockPixels data factor i j)).count c =
        (nonNodata (blockPixels data factor i j)).count a ∧
      ∀ v ∈ nonNodata (blockPixels data factor i j),
        (nonNodata (blockPixels data factor i j)).count v =
          (nonNodata (blockPixels data factor i j)).count a → c ≤ v := by
  have hne : nonNodata (blockPixels data factor i j) ≠ [] := by
    intro hnil
    rw [hnil] at ha
    simp at ha
  obtain ⟨c, hc⟩ : ∃ c, blockMode (blockPixels data factor i j) = some c := by
    cases hm : blockMode (blockPixels data factor i j) with
    | none => exact absurd (blockMode_eq_none_iff.mp hm) hne
    | some c => exact ⟨c, rfl⟩
  obtain ⟨hcmem, hcmax, hcleast⟩ := blockMode_spec hc
  have hceq : (nonNodata (blockPixels data factor i j)).count c =
      (nonNodata (blockPixels data factor i j)).count a :=
    le_antisymm (hmaxa c hcmem) (hcmax a ha)
  refine ⟨c, ?_, hcmem, hceq, ?_⟩
  · rw [cell_aggregate_raster data transform factor i j hi hj, hc]
  · intro v hv hcv
    apply hcleast v hv
    rw [hcv, hceq]

/-- Witness for C2: the 2×2 grid `[[3,5],[5,3]]` at factor 2 has block
counts `{3: 2, 5: 2}`; the output cell is 3, the lowest tied code. -/
theorem aggregate_raster_tie_lowest_code_witness :
    ∃ c, cell (aggregate_raster [[3, 5], [5, 3]] ⟨1, 0, 0, 0, 1, 0⟩ 2).1 0 0 = some c ∧
      c ∈ nonNodata (blockPixels [[3, 5], [5, 3]] 2 0 0) ∧
      (nonNodata (blockPixels [[3, 5], [5, 3]] 2 0 0)).count c =
        (nonNodata (blockPixels [[3, 5], [5, 3]] 2 0 0)).count 3 ∧
      ∀ v ∈ nonNodata (blockPixels [[3, 5], [5, 3]] 2 0 0),
        (nonNodata (blockPixels [[3, 5], [5, 3]] 2 0 0)).count v =
          (nonNodata (blockPixels [[3, 5], [5, 3]] 2 0 0)).count 3 → c ≤ v :=
  aggregate_raster_tie_lowest_code [[3, 5], [5, 3]] ⟨1, 0, 0, 0, 1, 0⟩ 2 0 0 3 5
    (by decide) (by decide) (by decide) (by decide) (by decide) (by decide) (by decide)

/-- Claim C6 (confirmed): an in-range block consisting entirely of nodata
(255) pixels aggregates to the nodata sentinel 255. -/
theorem aggregate_raster_nodata_propagation
    (data : List (List Nat)) (transform : Affine) (factor i j : Nat)
    (hi : i < data.length / factor)
    (hj : j < (data.headD []).length / factor)
    (hall : ∀ v ∈ blockPixels data factor i j, v = nodata) :
    cell (aggregate_raster data transform factor).1 i j = some nodata := by
  rw [cell_aggregate_raster data transform factor i j hi hj]
  have hnil : nonNodata (blockPixels data factor i j) = [] := by
    rw [nonNodata, List.filter_eq_nil_iff]
    intro v hv
    simpa using hall v hv
  rw [blockMode_eq_none_iff.mpr hnil]

/-- Witness for C6: a 2×2 all-nodata grid aggregates to nodata. -/
theorem aggregate_raster_nodata_propagation_witness :
    cell (aggregate_raster [[255, 255], [255, 255]] ⟨1, 0, 0, 0, 1, 0⟩ 2).1 0 0 =
      some nodata :=
  aggregate_raster_nodata_propagation [[255, 255], [255, 255]] ⟨1, 0, 0, 0, 1, 0⟩ 2 0 0
    (by decide) (by decide) (by decide)

/-- Claim C5 (confirmed): for every vector feature set, the
dissolve-and-enrich step emits at most one polygon row per distinct
class code. -/
theorem dissolve_and_enrich_unique_per_class (rows : List Feature) :
    ((dissolve_and_enrich rows).map (·.lcz)).Nodup := by
  rw [dissolve_and_enrich, mergeLeftCatalog_map_lcz, dissolve_map_lcz]
  exact List.Pairwise.imp (fun h => ne_of_lt h) (pairwise_npUnique _)

/-- Claim C7 (confirmed): a dissolved polygon whose class code has no
catalog match (no `LCZ_INFO` row with that code) is kept in the output
with absent (`none`) descriptive fields, instead of being dropped. -/
theorem dissolve_and_enrich_keeps_unmatched_code (rows : List Feature) (c : Nat)
    (hc : c ∈ rows.map (·.lcz))
    (hmiss : LCZ_INFO.filter (fun d => d.lcz = c) = []) :
    ∃ e ∈ dissolve_and_enrich rows, e.lcz = c ∧ e.info = none := by
  have hcd : c ∈ (dissolve rows).map (·.lcz) := by
    rw [dissolve_map_lcz]
    exact (mem_npUnique c _).mpr hc
  obtain ⟨r, hr, hrc⟩ := List.mem_map.mp hcd
  refine ⟨{ lcz := r.lcz, geom := r.geom, info := none }, ?_, hrc, rfl⟩
  exact mem_mergeLeftCatalog_of_unmatched (dissolve rows) r hr (by rw [hrc]; exact hmiss)

/-- Witness for C7: code 99 is outside the catalog, yet its polygon
survives enrichment with `none` catalog fields. -/
theorem dissolve_and_enrich_keeps_unmatched_code_witness :
    ∃ e ∈ dissolve_and_enrich [⟨99, ⟨1, 1000000, true⟩⟩], e.lcz = 99 ∧ e.info = none :=
  dissolve_and_enrich_keeps_unmatched_code [⟨99, ⟨1, 1000000, true⟩⟩] 99
    (by decide) (by decide)

/-- Claim C8 (confirmed): `validate_lcz_data` is a total function into
reports — in the embedding it cannot raise, mirroring the source's
catch-all `except` — and on a `None` or empty input it returns
`valid = false` together with a non-empty `errors` list. -/
theorem validate_lcz_data_empty_or_none_invalid (gdf : Option GeoDataFrame)
    (h : gdf = none ∨ ∃ g, gdf = some g ∧ g.rows = []) :
    (validate_lcz_data gdf).valid = false ∧ (validate_lcz_data gdf).errors ≠ [] := by
  rcases h with h | ⟨g, hg, hrows⟩
  · subst h
    exact ⟨rfl, by simp [validate_lcz_data]⟩
  · subst hg
    have h0 : g.rows.length = 0 := by rw [hrows]; rfl
    constructor
    · simp [validate_lcz_data, h0]
    · simp [validate_lcz_data, h0]

/-- Witness for C8 at the `None` input. -/
theorem validate_lcz_data_empty_or_none_invalid_witness :
    (validate_lcz_data none).valid = false ∧ (validate_lcz_data none).errors ≠ [] :=
  validate_lcz_data_empty_or_none_invalid none (Or.inl rfl)

/-- Claim C9 (confirmed): when the direct, country-qualified and
generic-suffix geocoding attempts all fail across the retry budget,
`lcz_get_map` raises `GeocodeError` — that specific constructor, not a
generic exception — whose message carries the last underlying error and
the remediation suggestions, whatever the download stage would do. -/
theorem lcz_get_map_geocode_error_after_retries {α β : Type}
    (geocode : String → Except String α) (fetchClip : α → Except LczError β)
    (city : String) (roi : Option α) (e0 e1 e2 : String)
    (h0 : geocode (geocodeQuery city 0) = .error e0)
    (h1 : geocode (geocodeQuery city 1) = .error e1)
    (h2 : geocode (geocodeQuery city 2) = .error e2) :
    lcz_get_map geocode fetchClip (some city) roi =
      .error (.geocodeError (geocodeFailMsg city (some e2))) := by
  have hstage : geocodeStage geocode city =
      .error (.geocodeError (geocodeFailMsg city (some e2))) := by
    rw [geocodeStage]
    have hr : List.range geocode_retries = [0, 1, 2] := rfl
    rw [hr]
    simp only [geocodeLoop, h0, h1, h2]
  show (geocodeStage geocode city).bind fetchClip = _
  rw [hstage]
  rfl

/-- Witness for C9: a gibberish city name whose geocoding always fails
raises `GeocodeError` with the last error in the message. -/
theorem lcz_get_map_geocode_error_after_retries_witness :
    lcz_get_map (fun _ => (Except.error "HTTP Error 403" : Except String Unit))
      (fun _ => (Except.ok 0 : Except LczError Nat)) (some "Xyzzy Qwfp") none =
      .error (.geocodeError (geocodeFailMsg "Xyzzy Qwfp" (some "HTTP Error 403"))) :=
  lcz_get_map_geocode_error_after_retries _ _ "Xyzzy Qwfp" none
    "HTTP Error 403" "HTTP Error 403" "HTTP Error 403" rfl rfl rfl

/-- Claim C10 (confirmed): `lcz_cal_area` leaves its argument unchanged —
the caller's frame state at return (second component of the embedded
result) equals the input frame: all work happens on the internal
`gdf.copy()`. -/
theorem lcz_cal_area_argument_unchanged (g g2 : GeoDataFrame) (r : CalResult)
    (h : lcz_cal_area (some g) = .ok (r, g2)) : g2 = g :=
  congrArg Prod.snd (lcz_cal_area_ok_inv g (r, g2) h)

/-- Witness for C10 at a concrete two-row frame. -/
theorem lcz_cal_area_argument_unchanged_witness :
    lcz_cal_area (some gFrameC10) = .ok (calArea gFrameC10, gFrameC10) ∧
    gFrameC10 = gFrameC10 :=
  ⟨rfl, lcz_cal_area_argument_unchanged gFrameC10 gFrameC10 (calArea gFrameC10) rfl⟩

/-- Claim C1, the counterexample: on `gZeroArea`, whose grand total area is
zero, `lcz_cal_area` does NOT report an error: the call succeeds and
the `percentual` column holds the non-finite marker `none` — the NaN of
the silent `0/0` division — and the summary repeats the zero total. -/
theorem lcz_cal_area_zero_total_counterexample :
    (lcz_cal_area (some gZeroArea)).toOption.isSome = true ∧
    (lcz_cal_area (some gZeroArea)).toOption.map
      (fun res => res.1.stats.map (·.percentual)) = some [none] ∧
    (lcz_cal_area (some gZeroArea)).toOption.map
      (fun res => res.1.summary.total_area_km2) = some 0 := by
  refine ⟨?_, ?_, ?_⟩ <;>
  norm_num [lcz_cal_area, gZeroArea, calArea, calAreaWork, groupStats, npUnique, insertUniq,
    sortLe, insertLe, pctOfTotal, round3, Except.toOption]

/-- Claim C1, as amended: on a non-empty frame with the required column whose
areas are all zero (grand total zero), `lcz_cal_area` succeeds — it
reports no error — and every `percentual` entry is the non-finite
marker `none` (NaN); the only error conditions it reports are the
empty/None input and the missing `zcl_classe` column. -/
theorem lcz_cal_area_zero_total_silent_nan (g : GeoDataFrame)
    (hne : g.rows.length ≠ 0) (hz : g.hasZclCol = true) (ha : g.hasAreaCol = true)
    (hzero : ∀ r ∈ g.rows, r.area_km2 = 0) :
    lcz_cal_area (some g) = .ok (calArea g, g) ∧
    ∀ p ∈ (calArea g).stats.map (·.percentual), p = none := by
  refine ⟨lcz_cal_area_ok g hne hz, ?_⟩
  intro p hp
  rw [calArea_stats_def] at hp
  have hw : calAreaWork g = g := by
    rw [calAreaWork]
    simp [ha]
  rw [hw] at hp
  have htot : ((groupStats g.rows).map (·.area_total_km2)).sum = 0 := by
    apply List.sum_eq_zero
    intro x hx
    obtain ⟨s, hs, rfl⟩ := List.mem_map.mp hx
    exact groupStats_total_zero g.rows hzero s hs
  rw [htot] at hp
  have hp2 := (List.Perm.map (fun s : StatRow => s.percentual)
    (sortLe_perm (fun a b : StatRow => decide (b.area_total_km2 ≤ a.area_total_km2))
      ((groupStats g.rows).map (fun r =>
        { r with percentual := pctOfTotal r.area_total_km2 0 })))).mem_iff.mp hp
  rw [List.map_map] at hp2
  obtain ⟨s, hs, rfl⟩ := List.mem_map.mp hp2
  simp [pctOfTotal]

/-- Witness for the amended C1 at `gZeroArea`. -/
theorem lcz_cal_area_zero_total_silent_nan_witness :
    lcz_cal_area (some gZeroArea) = .ok (calArea gZeroArea, gZeroArea) ∧
    ∀ p ∈ (calArea gZeroArea).stats.map (·.percentual), p = none :=
  lcz_cal_area_zero_total_silent_nan gZeroArea (by decide) (by decide) (by decide)
    (by decide)

/-- Claim C4, the counterexample: with classes LCZ 2 and LCZ 10 tied at total
5 km², the table puts LCZ 10 first although the catalog order (codes
1-17) puts LCZ 2 first.  (At this two-row table numpy's sort runs its
insertion-sort phase, where the model coincides with the program: the
ties come out in lexicographic groupby key order, not catalog order.) -/
theorem lcz_cal_area_tie_not_catalog_order :
    (lcz_cal_area (some gTieC4)).toOption.map
      (fun res => res.1.stats.map (fun s => (s.zcl_classe, s.area_total_km2))) =
      some [("LCZ 10", 5), ("LCZ 2", 5)] ∧
    catalogIdx "LCZ 2" < catalogIdx "LCZ 10" := by
  constructor
  · have h1 : ¬ (("LCZ 2" : String) < "LCZ 10") := by
      rw [String.lt_iff_toList_lt]; decide
    have h2 : ("LCZ 2" : String) ≠ "LCZ 10" := by decide
    have hnp : npUnique (["LCZ 2", "LCZ 10"] : List String) = ["LCZ 10", "LCZ 2"] := by
      simp [npUnique, insertUniq, h1, h2]
    norm_num [lcz_cal_area, gTieC4, calArea, calAreaWork, groupStats, hnp,
      sortLe, insertLe, pctOfTotal, round3, round2, round_eq, Except.toOption,
      show ("LCZ 10" : String) ≠ "LCZ 2" from by decide,
      show ("LCZ 2" : String) ≠ "LCZ 10" from by decide]
  · decide

/-- Claim C4, as amended: the table has one row per distinct class present
(its labels are a permutation of the distinct class labels of the work
frame, hence without duplicates), and is sorted by descending total
area.  The catalog-order tie-break of the original claim does not hold
(see the counterexample); no particular tie order is claimed here,
because the source's `sort_values` uses numpy's default sort, which
preserves no tie order on tables of 17 or more rows — both conjuncts
below hold for any correct sorting algorithm. -/
theorem lcz_cal_area_sorted_desc (g : GeoDataFrame)
    (res : CalResult × GeoDataFrame) (h : lcz_cal_area (some g) = .ok res) :
    res.1.stats.Pairwise (fun a b => b.area_total_km2 ≤ a.area_total_km2) ∧
    (res.1.stats.map (·.zcl_classe)).Perm
      (npUnique ((calAreaWork g).rows.map (·.zcl_classe))) := by
  have hres : res = (calArea g, g) := lcz_cal_area_ok_inv g res h
  subst hres
  constructor
  · rw [calArea_stats_def]
    have hS : ((groupStats (calAreaWork g).rows).map (fun r : StatRow =>
        { r with
          percentual :=
            pctOfTotal r.area_total_km2
              (((groupStats (calAreaWork g).rows).map
                (fun s : StatRow => s.area_total_km2)).sum) })).Pairwise
        (fun a b : StatRow => a.zcl_classe < b.zcl_classe) := by
      rw [List.pairwise_map]
      exact groupStats_pairwise_zcl _
    have hsorted := pairwise_sortLe
      (fun a b : StatRow => decide (b.area_total_km2 ≤ a.area_total_km2))
      (fun a b : StatRow => a.zcl_classe < b.zcl_classe)
      (fun a b c hab hbc => decide_eq_true
        (le_trans (of_decide_eq_true hbc) (of_decide_eq_true hab)))
      (fun a b => (le_total b.area_total_km2 a.area_total_km2).imp
        decide_eq_true decide_eq_true)
      _ hS
    exact List.Pairwise.imp (fun hr => of_decide_eq_true hr.1) hsorted
  · rw [calArea_stats_def]
    refine (List.Perm.map _ (sortLe_perm _ _)).trans ?_
    rw [List.map_map]
    have hcomp : ((groupStats (calAreaWork g).rows).map
        ((fun s : StatRow => s.zcl_classe) ∘ (fun r =>
          { r with
            percentual :=
              pctOfTotal r.area_total_km2
                (((groupStats (calAreaWork g).rows).map (·.area_total_km2)).sum) }))) =
        (groupStats (calAreaWork g).rows).map (·.zcl_classe) :=
      List.map_congr_left (fun a _ => rfl)
    rw [hcomp, groupStats_map_zcl]

/-- Witness for the amended C4 at the tied frame `gTieC4`. -/
theorem lcz_cal_area_sorted_desc_witness :
    (calArea gTieC4, gTieC4).1.stats.Pairwise
      (fun a b => b.area_total_km2 ≤ a.area_total_km2) ∧
    ((calArea gTieC4, gTieC4).1.stats.map (·.zcl_classe)).Perm
      (npUnique ((calAreaWork gTieC4).rows.map (·.zcl_classe))) :=
  lcz_cal_area_sorted_desc gTieC4 (calArea gTieC4, gTieC4) rfl

/-- Claim C3 (code bug), evaluated at the failing input: on the
geographic-CRS frame `gGeoC3`, `enhance_lcz_data` attaches `area_km2`
measured directly in raw degree coordinates (2 deg² becomes the
meaningless 0.000002 "km²") without any reprojection, and leaves the
CRS geographic; the equal-area measurement of the same geometry is
8 km².  Downstream, `lcz_cal_area` then skips its own Mollweide
reprojection because the `area_km2` column already exists (total 0 km²
after rounding), although on the same frame without that column it
produces the correct 8 km². -/
theorem enhance_lcz_data_geographic_area_bug :
    (enhance_lcz_data gGeoC3).rows.map (·.area_km2) = [2 / 1000000] ∧
    (enhance_lcz_data gGeoC3).crs = some ⟨true⟩ ∧
    gGeoC3.rows.map (fun r => r.geom.mollweideAreaM2 / 1000000) = [8] ∧
    (lcz_cal_area (some (enhance_lcz_data gGeoC3))).toOption.map
      (fun res => res.1.summary.total_area_km2) = some 0 ∧
    (lcz_cal_area (some gGeoC3)).toOption.map
      (fun res => res.1.summary.total_area_km2) = some 8 := by
  refine ⟨?_, ?_, ?_, ?_, ?_⟩ <;>
  norm_num [lcz_cal_area, gGeoC3, enhance_lcz_data, setAreaColumn,
    GeoDataFrame.to_crs_mollweide, calArea, calAreaWork, groupStats, npUnique, insertUniq,
    sortLe, insertLe, pctOfTotal, round3, round_eq, Except.toOption]

end Lcz
